import Mathlib

/-!
# Verification of the ROSIntegrationVision frame pipeline

Shallow embedding of the core algorithms of
`Source/ROSIntegrationVision/Private/VisionComponent.cpp`:

* the per-channel tone-mapping kernels `ProcessChannel` (three overloads),
* the SIMD depth conversion `convertDepth`,
* the palette generator `GenerateColors` and the object-identifier
  assignment `ColorAllObjects`,
* the framerate gate at the top of `TickComponent`,
* the camera-intrinsics computation at the bottom of `TickComponent`,
* the producer/worker synchronisation structure of `TickComponent`,
  `ProcessColor` and `ProcessDepth`, as a small-step transition system.

Machine floating-point arithmetic is embedded into an arbitrary linear
ordered field (instantiated at `ℚ` for computation and at `ℝ` where a
transcendental value is needed); the platform `pow` function is a
parameter of each definition, exactly where the source calls
`FGenericPlatformMath::Pow`.
-/

namespace RIV

/-- `std::round`: round half away from zero, as called at the end of each
`ProcessChannel` overload (VisionComponent.cpp line 515). -/
def cppRound {K : Type} [LinearOrderedField K] [FloorRing K] (x : K) : ℤ :=
  if x < 0 then -(Int.floor (-x + 1 / 2)) else Int.floor (x + 1 / 2)

/-- The clamp written in `ProcessChannel` (lines 513-514):
`if (out > 255.f) out = 255.f; else if (out < 0.f) out = 0.f;`. -/
def codeClamp {K : Type} [LinearOrderedField K] (x : K) : K :=
  if x > 255 then 255 else if x < 0 then 0 else x

/-- `uint8_t UVisionComponent::ProcessChannel(const uint8 &channel)`
(VisionComponent.cpp lines 506-516).  `powf` models the platform
`FGenericPlatformMath::Pow`; `channel` is the 8-bit input value. -/
def processChannelU8 {K : Type} [LinearOrderedField K] [FloorRing K]
    (powf : K → K → K) (gammaCorrection contrast brightness : K)
    (channel : ℕ) : ℤ :=
  let out0 : K := powf ((channel : K) / 255) (1 / gammaCorrection) * 255
  let out1 : K := out0 + (contrast * (out0 - 128) + 128 + brightness)
  cppRound (codeClamp out1)

/-- `uint8_t UVisionComponent::ProcessChannel(const float &channel)`
(VisionComponent.cpp lines 518-528).  Note the source multiplies the
power term by `255.f` twice; `channel` is the normalized float input. -/
def processChannelFloat {K : Type} [LinearOrderedField K] [FloorRing K]
    (powf : K → K → K) (gammaCorrection contrast brightness : K)
    (channel : K) : ℤ :=
  let out0 : K := powf (channel / 255) (1 / gammaCorrection) * 255 * 255
  let out1 : K := out0 + (contrast * (out0 - 128) + 128 + brightness)
  cppRound (codeClamp out1)

/-- `uint8_t UVisionComponent::ProcessChannel(const FFloat16 &channel)`
(VisionComponent.cpp lines 530-540): the same body as the `float`
overload, applied to the value decoded from the half float. -/
def processChannelF16 {K : Type} [LinearOrderedField K] [FloorRing K]
    (powf : K → K → K) (gammaCorrection contrast brightness : K)
    (channel : K) : ℤ :=
  let out0 : K := powf (channel / 255) (1 / gammaCorrection) * 255 * 255
  let out1 : K := out0 + (contrast * (out0 - 128) + 128 + brightness)
  cppRound (codeClamp out1)

/-- The transform as written in the spec (§4.3):
`g = pow(c/255, 1/gamma) * 255; out = g + contrast*(g-128) + 128 + brightness;
clamp(out, 0, 255), round to nearest integer`, with `clamp` read as the
usual two-sided clamp. -/
def specChannelTransform {K : Type} [LinearOrderedField K] [FloorRing K]
    (powf : K → K → K) (gamma contrast brightness : K) (c : ℕ) : ℤ :=
  let g : K := powf ((c : K) / 255) (1 / gamma) * 255
  cppRound (max 0 (min 255 (g + contrast * (g - 128) + 128 + brightness)))

lemma codeClamp_eq_max_min {K : Type} [LinearOrderedField K] (x : K) :
    codeClamp x = max 0 (min 255 x) := by
  unfold codeClamp
  by_cases h1 : x > 255
  · rw [if_pos h1, min_eq_left h1.le, max_eq_right (by norm_num : (0 : K) ≤ 255)]
  · rw [if_neg h1]
    push_neg at h1
    rw [min_eq_right h1]
    by_cases h2 : x < 0
    · rw [if_pos h2, max_eq_left h2.le]
    · rw [if_neg h2]
      push_neg at h2
      rw [max_eq_right h2]

/-- Claim C2: for every 8-bit channel value `c` in `[0,255]` and fixed
parameters with gamma nonzero, `ProcessChannel(c)` equals
`round(clamp(g + contrast*(g-128) + 128 + brightness, 0, 255))` where
`g = pow(c/255, 1/gamma) * 255`.  Stated for any platform power function
`powf`, since both the code and the spec formula invoke it identically. -/
theorem claim_c2_processChannel_matches_spec
    (powf : ℚ → ℚ → ℚ) (gamma contrast brightness : ℚ) (c : ℕ)
    (hgamma : gamma ≠ 0) (hc : c ≤ 255) :
    processChannelU8 powf gamma contrast brightness c =
      specChannelTransform powf gamma contrast brightness c := by
  have h : ∀ g : ℚ, g + (contrast * (g - 128) + 128 + brightness)
      = g + contrast * (g - 128) + 128 + brightness := fun g => by ring
  simp only [processChannelU8, specChannelTransform, codeClamp_eq_max_min, h]

/-- Witness for C2 at `gamma = 2`, `contrast = 1`, `brightness = 0`,
`c = 100`, with a concrete stand-in power function. -/
theorem claim_c2_witness :
    (2 : ℚ) ≠ 0 ∧ (100 : ℕ) ≤ 255 ∧
      processChannelU8 (fun x y => x + y : ℚ → ℚ → ℚ) 2 1 0 100 =
        specChannelTransform (fun x y => x + y : ℚ → ℚ → ℚ) 2 1 0 100 :=
  ⟨by norm_num, by norm_num,
    claim_c2_processChannel_matches_spec (fun x y => x + y) 2 1 0 100
      (by norm_num) (by norm_num)⟩

/-- Counterexample to claim C3: with `gamma = 1`, `contrast = 0`,
`brightness = 0` and a power function that is the identity at exponent 1
(as IEEE `pow` is), `ProcessChannel(0) = 128 ≠ 0`: the transform is not
the identity, because the source adds the gamma-corrected value to the
contrast/brightness expression (`out += Contrast*(out-128)+128+Brightness`). -/
theorem claim_c3_counterexample :
    processChannelU8 (K := ℚ) (fun x _ => x) 1 0 0 0 = 128 ∧ (128 : ℤ) ≠ 0 := by
  constructor
  · norm_num [processChannelU8, codeClamp, cppRound]
  · decide

/-- Claim C3 (amended): with `gamma = 1`, `contrast = 0`, `brightness = 0`
and any platform power function satisfying `pow(x, 1) = x`, the 8-bit
channel transform is `c ↦ min (c + 128) 255`, not the identity. -/
theorem claim_c3_amended
    (powf : ℚ → ℚ → ℚ) (hpow : ∀ x, powf x 1 = x) (c : ℕ) (hc : c ≤ 255) :
    processChannelU8 powf 1 0 0 c = min ((c : ℤ) + 128) 255 := by
  have hg : ((c : ℚ) / 255) * 255 = (c : ℚ) := by
    field_simp
  simp only [processChannelU8, div_one, hpow, hg]
  have harg : (c : ℚ) + (0 * ((c : ℚ) - 128) + 128 + 0) = (c : ℚ) + 128 := by
    ring
  rw [harg]
  have hc0 : (0 : ℚ) ≤ (c : ℚ) := by positivity
  by_cases hbig : (c : ℚ) + 128 > 255
  · have h127 : (127 : ℤ) < (c : ℤ) := by
      exact_mod_cast (by linarith : (127 : ℚ) < (c : ℚ))
    have hclamp : codeClamp ((c : ℚ) + 128) = 255 := by
      unfold codeClamp
      rw [if_pos hbig]
    rw [hclamp, min_eq_right (by omega : (255 : ℤ) ≤ (c : ℤ) + 128)]
    unfold cppRound
    rw [if_neg (by norm_num : ¬ (255 : ℚ) < 0)]
    rw [show ((255 : ℚ) + 1 / 2) = ((255 : ℤ) : ℚ) + 1 / 2 by norm_num,
      Int.floor_int_add, show ⌊(1 / 2 : ℚ)⌋ = 0 by norm_num [Int.floor_eq_iff]]
    omega
  · push_neg at hbig
    have hle : (c : ℤ) + 128 ≤ 255 := by
      exact_mod_cast (by linarith : (c : ℚ) + 128 ≤ 255)
    have hclamp : codeClamp ((c : ℚ) + 128) = (c : ℚ) + 128 := by
      unfold codeClamp
      rw [if_neg (by linarith : ¬ (c : ℚ) + 128 > 255),
        if_neg (by linarith : ¬ (c : ℚ) + 128 < 0)]
    rw [hclamp, min_eq_left hle]
    unfold cppRound
    rw [if_neg (by linarith : ¬ (c : ℚ) + 128 < 0)]
    rw [show ((c : ℚ) + 128 + 1 / 2) = (((c : ℤ) + 128 : ℤ) : ℚ) + 1 / 2 by
      push_cast
      ring]
    rw [Int.floor_int_add, show ⌊(1 / 2 : ℚ)⌋ = 0 by norm_num [Int.floor_eq_iff]]
    omega

/-- Claim C5 (refuted, code bug): `ProcessChannel` contains no guard on
`GammaCorrection = 0`.  First conjunct: at gamma zero the transform is
evaluated with the exponent `1/0` exactly as written in the source (no
rejection, no substituted default).  Second conjunct: the output at gamma
zero still flows through the platform power function, so no fixed default
value is produced either. -/
theorem claim_c5_gamma_zero_evaluates :
    (∀ (pf : ℚ → ℚ → ℚ) (k b : ℚ) (c : ℕ),
        processChannelU8 pf 0 k b c =
          cppRound (codeClamp (pf ((c : ℚ) / 255) (1 / (0 : ℚ)) * 255 +
            (k * (pf ((c : ℚ) / 255) (1 / (0 : ℚ)) * 255 - 128) + 128 + b)))) ∧
      processChannelU8 (K := ℚ) (fun _ _ => 0) 0 1 0 10 ≠
        processChannelU8 (K := ℚ) (fun _ _ => 1) 0 1 0 10 := by
  refine ⟨fun pf k b c => rfl, ?_⟩
  have h1 : processChannelU8 (K := ℚ) (fun _ _ => 0) 0 1 0 10 = 0 := by
    norm_num [processChannelU8, codeClamp, cppRound]
  have h2 : processChannelU8 (K := ℚ) (fun _ _ => 1) 0 1 0 10 = 255 := by
    norm_num [processChannelU8, codeClamp, cppRound]
  rw [h1, h2]
  decide

/-- Claim C4 (refuted, code bug): the `float` overload of `ProcessChannel`
multiplies the power term by 255 twice (lines 521-522), so for the same
visual value (byte 1, normalized value 1/255) and parameters gamma = 2,
contrast = 1, brightness = 0, the 8-bit overload yields 32 while the
float overload yields 255: the outputs are not bit-identical. -/
theorem claim_c4_overloads_differ :
    processChannelU8 (K := ℝ) (fun x y => x ^ y) 2 1 0 1 = 32 ∧
      processChannelFloat (K := ℝ) (fun x y => x ^ y) 2 1 0 (1 / 255) = 255 ∧
      (32 : ℤ) ≠ 255 := by
  have hs0 : (0 : ℝ) < Real.sqrt 255 := Real.sqrt_pos.mpr (by norm_num)
  have hlow : (15.75 : ℝ) ≤ Real.sqrt 255 := by
    rw [Real.le_sqrt' (by norm_num)]
    norm_num
  have hhigh : Real.sqrt 255 < 16.25 := by
    rw [Real.sqrt_lt' (by norm_num)]
    norm_num
  refine ⟨?_, ?_, by decide⟩
  · have harg : ((1 : ℝ) / 255) ^ ((1 : ℝ) / 2) * 255 = Real.sqrt 255 := by
      rw [← Real.sqrt_eq_rpow, one_div, Real.sqrt_inv, inv_mul_eq_div,
        div_eq_iff (ne_of_gt hs0), Real.mul_self_sqrt (by norm_num : (0 : ℝ) ≤ 255)]
    have e1 : processChannelU8 (K := ℝ) (fun x y => x ^ y) 2 1 0 1
        = cppRound (codeClamp (2 * Real.sqrt 255)) := by
      simp only [processChannelU8, Nat.cast_one, harg]
      rw [show Real.sqrt 255 + (1 * (Real.sqrt 255 - 128) + 128 + 0)
          = 2 * Real.sqrt 255 by ring]
    rw [e1]
    have hclamp : codeClamp (2 * Real.sqrt 255) = 2 * Real.sqrt 255 := by
      unfold codeClamp
      rw [if_neg (by nlinarith), if_neg (by nlinarith)]
    rw [hclamp]
    unfold cppRound
    rw [if_neg (by nlinarith)]
    rw [Int.floor_eq_iff]
    constructor
    · push_cast
      nlinarith
    · push_cast
      nlinarith
  · have harg : (((1 : ℝ) / 255) / 255) ^ ((1 : ℝ) / 2) * 255 * 255 = 255 := by
      rw [show ((1 : ℝ) / 255) / 255 = ((1 : ℝ) / 255) ^ 2 by norm_num,
        ← Real.sqrt_eq_rpow, Real.sqrt_sq (by norm_num : (0 : ℝ) ≤ 1 / 255)]
      norm_num
    simp only [processChannelFloat, harg]
    rw [show (255 : ℝ) + (1 * ((255 : ℝ) - 128) + 128 + 0) = 510 by norm_num]
    have hclamp : codeClamp (510 : ℝ) = 255 := by
      unfold codeClamp
      rw [if_pos (by norm_num)]
    rw [hclamp]
    unfold cppRound
    rw [if_neg (by norm_num)]
    rw [Int.floor_eq_iff]
    constructor
    · push_cast
      norm_num
    · push_cast
      norm_num

/-- IEEE-754 binary16 decoding of a 16-bit code (`_mm_cvtph_ps` input in
`convertDepth`, VisionComponent.cpp lines 735-744), as an exact rational:
sign bit 15, 5 exponent bits, 10 fraction bits; subnormals for exponent 0.
Only meaningful for finite codes (`isFiniteHalf`), since `ℚ` has no
infinities or NaNs. -/
def halfDecode (c : ℕ) : ℚ :=
  let s : ℕ := c / 2 ^ 15 % 2
  let e : ℕ := c / 2 ^ 10 % 32
  let f : ℕ := c % 2 ^ 10
  let mag : ℚ :=
    if e = 0 then (f : ℚ) / 2 ^ 10 * (2 : ℚ) ^ (-14 : ℤ)
    else (1 + (f : ℚ) / 2 ^ 10) * (2 : ℚ) ^ ((e : ℤ) - 15)
  (if s = 1 then -1 else 1) * mag

/-- A 16-bit half-float code that is finite (exponent field not 31). -/
def isFiniteHalf (c : ℕ) : Prop := c < 2 ^ 16 ∧ c / 2 ^ 10 % 32 ≠ 31

instance : DecidablePred isFiniteHalf := fun c => by
  unfold isFiniteHalf
  infer_instance

/-- `void UVisionComponent::convertDepth(const uint16_t *in, __m128 *out)`
(lines 735-744): iterates `(Width*Height)/4` times, each iteration
converting 4 half-float samples to 32-bit floats and dividing the vector
by 100 (UU centimeters to ROS meters).  Input lists whose length is not a
multiple of 4 have their trailing remainder dropped, exactly as the
`size = (Width*Height)/4` loop bound does. -/
def convertDepth : List ℕ → List ℚ
  | a :: b :: c :: d :: rest =>
      halfDecode a / 100 :: halfDecode b / 100 :: halfDecode c / 100 ::
        halfDecode d / 100 :: convertDepth rest
  | _ => []

/-- Number of vector operations performed by `convertDepth`: one
`_mm_cvtph_ps`/divide per loop iteration. -/
def convertDepthOps : List ℕ → ℕ
  | _ :: _ :: _ :: _ :: rest => 1 + convertDepthOps rest
  | _ => 0

lemma convertDepth_eq_map : ∀ l : List ℕ, 4 ∣ l.length →
    convertDepth l = l.map fun x => halfDecode x / 100
  | [] => fun _ => rfl
  | [_] => fun h => by
      simp only [List.length_cons, List.length_nil] at h
      omega
  | [_, _] => fun h => by
      simp only [List.length_cons, List.length_nil] at h
      omega
  | [_, _, _] => fun h => by
      simp only [List.length_cons, List.length_nil] at h
      omega
  | a :: b :: c :: d :: rest => fun h => by
      have h4 : 4 ∣ rest.length := by
        rcases h with ⟨k, hk⟩
        simp only [List.length_cons] at hk
        exact ⟨k - 1, by omega⟩
      simp only [convertDepth, List.map_cons, convertDepth_eq_map rest h4]

lemma convertDepthOps_count : ∀ l : List ℕ, 4 ∣ l.length →
    4 * convertDepthOps l = l.length
  | [] => fun _ => rfl
  | [_] => fun h => by
      simp only [List.length_cons, List.length_nil] at h
      omega
  | [_, _] => fun h => by
      simp only [List.length_cons, List.length_nil] at h
      omega
  | [_, _, _] => fun h => by
      simp only [List.length_cons, List.length_nil] at h
      omega
  | a :: b :: c :: d :: rest => fun h => by
      have h4 : 4 ∣ rest.length := by
        rcases h with ⟨k, hk⟩
        simp only [List.length_cons] at hk
        exact ⟨k - 1, by omega⟩
      have ih := convertDepthOps_count rest h4
      simp only [convertDepthOps, List.length_cons]
      omega

/-- Claim C6: for a finite half-float input of length divisible by 4,
`convertDepth` outputs one float per input sample, each equal to the
decoded value divided by 100, consuming 4 samples per vector operation;
and the half code for `1.0` (`0x3C00 = 15360`) yields `0.01` within
`1e-6`. -/
theorem claim_c6_convertDepth (l : List ℕ) (h4 : 4 ∣ l.length)
    (hfin : ∀ x ∈ l, isFiniteHalf x) :
    convertDepth l = (l.map fun x => halfDecode x / 100) ∧
      (convertDepth l).length = l.length ∧
      4 * convertDepthOps l = l.length ∧
      |halfDecode 15360 / 100 - 1 / 100| ≤ 1 / 1000000 := by
  refine ⟨convertDepth_eq_map l h4, ?_, convertDepthOps_count l h4, ?_⟩
  · rw [convertDepth_eq_map l h4, List.length_map]
  · norm_num [halfDecode]

/-- Witness for C6 on the concrete frame `[0x3C00, 0, 0x3C00, 0]`. -/
theorem claim_c6_witness :
    4 ∣ ([15360, 0, 15360, 0] : List ℕ).length ∧
      (∀ x ∈ ([15360, 0, 15360, 0] : List ℕ), isFiniteHalf x) ∧
      convertDepth [15360, 0, 15360, 0]
        = ([15360, 0, 15360, 0] : List ℕ).map fun x => halfDecode x / 100 :=
  ⟨by decide, by decide,
    (claim_c6_convertDepth [15360, 0, 15360, 0] (by decide) (by decide)).1⟩

/-- The Sat/Val growth loop of `GenerateColors` (lines 580-593):
`while (left > 0) { ++ValCount; left = N - S*V*H; if (left > 0) { ++SatCount;
left = N - S*V*H; } }` with `HueCount = 50`, written with explicit fuel
(the loop always terminates well before `N` iterations, which the lemmas
below prove). -/
def growLoop (numColors : ℤ) : ℕ → ℕ → ℕ → ℤ → ℕ × ℕ
  | 0, satCount, valCount, _ => (satCount, valCount)
  | fuel + 1, satCount, valCount, left =>
    if left ≤ 0 then (satCount, valCount)
    else
      let valCount' := valCount + 1
      let left' := numColors - ((satCount * valCount' * 50 : ℕ) : ℤ)
      if left' ≤ 0 then (satCount, valCount')
      else
        growLoop numColors fuel (satCount + 1) valCount'
          (numColors - (((satCount + 1) * valCount' * 50 : ℕ) : ℤ))

/-- The `(SatCount, ValCount)` pair computed by `GenerateColors(N)`
(lines 575-593).  The initial `left = std::max<int32_t>(0, N - 50)`
wraps through unsigned arithmetic for `N < 50`, which on the target
platforms produces a negative value clamped to 0, i.e. `max 0 (N - 50)`
over the integers. -/
def generateColorsSteps (numColors : ℕ) : ℕ × ℕ :=
  growLoop (numColors : ℤ) numColors 1 1 (max 0 ((numColors : ℤ) - 50))

/-- The number of `ObjectColors.Add` calls performed by the triple loop of
`GenerateColors` (lines 603-616): `SatCount * ValCount * HueCount`. -/
def generateColorsCount (numColors : ℕ) : ℕ :=
  (generateColorsSteps numColors).1 * (generateColorsSteps numColors).2 * 50

/-- The palette built by the triple loop of `GenerateColors`
(lines 595-616), each entry kept as the HSV triple handed to
`HSVToLinearRGB` (the per-entry RGB conversion does not affect the
generated count): hue `((h * 21) % 50) * (360/50)`, saturation
`1 - s * StepSat`, value `1 - v * StepVal`, with `MinSat = MinVal = 0.65`. -/
def generateColors (numColors : ℕ) : List (ℚ × ℚ × ℚ) :=
  let satCount := (generateColorsSteps numColors).1
  let valCount := (generateColorsSteps numColors).2
  let stepHue : ℚ := 360 / 50
  let stepSat : ℚ := (1 - 13 / 20) / max 1 ((satCount : ℚ) - 1)
  let stepVal : ℚ := (1 - 13 / 20) / max 1 ((valCount : ℚ) - 1)
  (List.range satCount).flatMap fun s =>
    (List.range valCount).flatMap fun v =>
      (List.range 50).map fun h =>
        (((h * 21 % 50 : ℕ) : ℚ) * stepHue, 1 - (s : ℚ) * stepSat,
          1 - (v : ℚ) * stepVal)

lemma growLoop_ge (numColors : ℤ) :
    ∀ (fuel satCount valCount : ℕ) (left : ℤ),
      numColors - ((satCount * valCount * 50 : ℕ) : ℤ) ≤ left →
      left ≤ 50 * fuel →
      1 ≤ satCount → 1 ≤ valCount →
      numColors ≤
        (((growLoop numColors fuel satCount valCount left).1 *
          (growLoop numColors fuel satCount valCount left).2 * 50 : ℕ) : ℤ)
  | 0, satCount, valCount, left => by
      intro hinv hfuel _ _
      simp only [growLoop]
      push_cast at hinv ⊢
      push_cast at hfuel
      linarith
  | fuel + 1, satCount, valCount, left => by
      intro hinv hfuel hsat hval
      simp only [growLoop]
      by_cases hexit : left ≤ 0
      · rw [if_pos hexit]
        linarith
      · rw [if_neg hexit]
        push_neg at hexit
        by_cases hexit2 :
            numColors - ((satCount * (valCount + 1) * 50 : ℕ) : ℤ) ≤ 0
        · rw [if_pos hexit2]
          linarith
        · rw [if_neg hexit2]
          push_neg at hexit2
          have hexp : (((satCount + 1) * (valCount + 1) * 50 : ℕ) : ℤ)
              = ((satCount * valCount * 50 : ℕ) : ℤ)
                + 50 * satCount + 50 * valCount + 50 := by
            push_cast
            ring
          have hexp2 : ((satCount * (valCount + 1) * 50 : ℕ) : ℤ)
              = ((satCount * valCount * 50 : ℕ) : ℤ) + 50 * satCount := by
            push_cast
            ring
          have hsat' : (1 : ℤ) ≤ (satCount : ℤ) := by exact_mod_cast hsat
          have hval' : (1 : ℤ) ≤ (valCount : ℤ) := by exact_mod_cast hval
          have hfuel' : left ≤ 50 * (fuel : ℤ) + 50 := by
            push_cast at hfuel
            linarith
          exact growLoop_ge numColors fuel (satCount + 1) (valCount + 1)
            (numColors - (((satCount + 1) * (valCount + 1) * 50 : ℕ) : ℤ))
            (le_refl _) (by linarith) (by omega) (by omega)

lemma length_bind_const {α β : Type} (n : ℕ) (l : List α) (f : α → List β)
    (hf : ∀ a, (f a).length = n) : (l.flatMap f).length = l.length * n := by
  induction l with
  | nil => simp
  | cons a t ih =>
      simp only [List.flatMap_cons, List.length_append, hf, ih, List.length_cons]
      ring

lemma generateColors_length (numColors : ℕ) :
    (generateColors numColors).length = generateColorsCount numColors := by
  unfold generateColors generateColorsCount
  rw [length_bind_const ((generateColorsSteps numColors).2 * 50)]
  · rw [List.length_range]
    ring
  · intro s
    rw [length_bind_const 50]
    · rw [List.length_range]
    · intro v
      rw [List.length_map, List.length_range]

/-- Claim C7: for every requested count `N ≥ 1`, `GenerateColors(N)`
generates at least `N` colors: after the alternating growth of value
steps then saturation steps, `SatCount * ValCount * HueCount ≥ N`, and
that many entries are appended to the palette. -/
theorem claim_c7_generateColors_sufficient (numColors : ℕ)
    (h1 : 1 ≤ numColors) :
    numColors ≤ (generateColors numColors).length := by
  rw [generateColors_length]
  have h := growLoop_ge (numColors : ℤ) numColors 1 1
    (max 0 ((numColors : ℤ) - 50))
    (by
      simp only [one_mul]
      exact le_max_right _ _)
    (by
      have h0 : (0 : ℤ) ≤ 50 * (numColors : ℕ) := by positivity
      have hN : ((numColors : ℤ) - 50) ≤ 50 * (numColors : ℕ) := by
        have : (1 : ℤ) ≤ (numColors : ℤ) := by exact_mod_cast h1
        linarith
      exact max_le h0 hN)
    (le_refl 1) (le_refl 1)
  unfold generateColorsCount
  exact_mod_cast h

/-- Witness for C7 at the spec's largest sample count `N = 200`. -/
theorem claim_c7_witness :
    1 ≤ 200 ∧ 200 ≤ (generateColors 200).length :=
  ⟨by decide, claim_c7_generateColors_sufficient 200 (by decide)⟩

/-- The object-to-identifier table and palette bookkeeping of
`UVisionComponent`: `ObjectToColor` (a map from actor name to identifier),
`ColorsUsed`, and `ObjectColors.Num()` (the palette length). -/
structure ColorTableState where
  objectToColor : List (String × ℕ)
  colorsUsed : ℕ
  objectColorsNum : ℕ
  deriving DecidableEq

/-- `TMap::Contains`/`operator[]` lookup by name (first matching key). -/
def lookupName : List (String × ℕ) → String → Option ℕ
  | [], _ => none
  | (k, v) :: rest, n => if k = n then some v else lookupName rest n

/-- The per-actor body of the second loop of `ColorAllObjects`
(lines 681-695): a previously seen name leaves the table untouched (only
`ColorObject` repaints it); an unseen name is assigned identifier
`ColorsUsed` after `check(ColorsUsed < ObjectColors.Num())` (line 686),
whose failure is modelled as `none`. -/
def colorStep (st : ColorTableState) (name : String) : Option ColorTableState :=
  if (lookupName st.objectToColor name).isSome then some st
  else if st.colorsUsed < st.objectColorsNum then
    some { objectToColor := st.objectToColor ++ [(name, st.colorsUsed)],
           colorsUsed := st.colorsUsed + 1,
           objectColorsNum := st.objectColorsNum }
  else none

/-- `bool UVisionComponent::ColorAllObjects()` (lines 667-698) restricted
to its table effects: it calls `GenerateColors(NumberOfActors * 2)` —
which appends `generateColorsCount (2 * #names)` entries to
`ObjectColors` — and then folds `colorStep` over the actor names. -/
def colorAllObjects (names : List String) (st : ColorTableState) :
    Option ColorTableState :=
  let st1 : ColorTableState :=
    { st with objectColorsNum :=
        st.objectColorsNum + generateColorsCount (2 * names.length) }
  names.foldlM colorStep st1

lemma lookupName_append_of_some {l1 : List (String × ℕ)} {n : String} {v : ℕ}
    (l2 : List (String × ℕ)) (h : lookupName l1 n = some v) :
    lookupName (l1 ++ l2) n = some v := by
  induction l1 with
  | nil => exact absurd h (by simp [lookupName])
  | cons p t ih =>
      cases p with
      | mk k w =>
          by_cases hk : k = n
          · simp only [lookupName, if_pos hk] at h ⊢
            exact h
          · simp only [lookupName, if_neg hk] at h ⊢
            exact ih h

lemma lookupName_append_of_none {l1 : List (String × ℕ)} {n : String}
    (l2 : List (String × ℕ)) (h : lookupName l1 n = none) :
    lookupName (l1 ++ l2) n = lookupName l2 n := by
  induction l1 with
  | nil => rfl
  | cons p t ih =>
      cases p with
      | mk k w =>
          by_cases hk : k = n
          · simp only [lookupName, if_pos hk] at h
            exact Option.noConfusion h
          · simp only [lookupName, if_neg hk] at h ⊢
            exact ih h

lemma colorStep_cases (st st1 : ColorTableState) (n : String)
    (h : colorStep st n = some st1) :
    st1 = st ∨
      (lookupName st.objectToColor n = none ∧
        st.colorsUsed < st.objectColorsNum ∧
        st1.objectToColor = st.objectToColor ++ [(n, st.colorsUsed)] ∧
        st1.colorsUsed = st.colorsUsed + 1 ∧
        st1.objectColorsNum = st.objectColorsNum) := by
  unfold colorStep at h
  by_cases h1 : (lookupName st.objectToColor n).isSome
  · rw [if_pos h1] at h
    injection h with h
    exact Or.inl h.symm
  · rw [if_neg h1] at h
    by_cases h2 : st.colorsUsed < st.objectColorsNum
    · rw [if_pos h2] at h
      injection h with h
      subst h
      exact Or.inr ⟨Option.not_isSome_iff_eq_none.mp h1, h2, rfl, rfl, rfl⟩
    · rw [if_neg h2] at h
      exact absurd h (by simp)

lemma foldlM_colorStep_inv :
    ∀ (names : List String) (st st' : ColorTableState),
      List.foldlM colorStep st names = some st' →
      (∀ name k, lookupName st.objectToColor name = some k →
          lookupName st'.objectToColor name = some k) ∧
        st.colorsUsed ≤ st'.colorsUsed ∧
        (∀ name k, lookupName st'.objectToColor name = some k →
          lookupName st.objectToColor name = some k ∨ name ∈ names)
  | [], st, st', h => by
      simp only [List.foldlM_nil] at h
      injection h with h
      subst h
      exact ⟨fun _ _ hk => hk, le_refl _, fun n k hk => Or.inl hk⟩
  | nm :: rest, st, st', h => by
      rw [List.foldlM_cons] at h
      cases hcs : colorStep st nm with
      | none =>
          rw [hcs] at h
          exact absurd h (by simp)
      | some st1 =>
          rw [hcs] at h
          have h' : List.foldlM colorStep st1 rest = some st' := h
          obtain ⟨p1, p2, p3⟩ := foldlM_colorStep_inv rest st1 st' h'
          rcases colorStep_cases st st1 nm hcs with heq | hnew
          · subst heq
            exact ⟨p1, p2, fun name k hk =>
              (p3 name k hk).imp id (List.mem_cons_of_mem nm)⟩
          · obtain ⟨hnone, hlt, htab, hused, hnum⟩ := hnew
            refine ⟨?_, ?_, ?_⟩
            · intro name k hk
              exact p1 name k (by
                rw [htab]
                exact lookupName_append_of_some _ hk)
            · omega
            · intro name k hk
              rcases p3 name k hk with hin | hmem
              · rw [htab] at hin
                cases hlook : lookupName st.objectToColor name with
                | some v =>
                    rw [lookupName_append_of_some _ hlook] at hin
                    injection hin with hv
                    subst hv
                    exact Or.inl rfl
                | none =>
                    rw [lookupName_append_of_none _ hlook] at hin
                    by_cases hnm : nm = name
                    · subst hnm
                      exact Or.inr (List.mem_cons_self _ _)
                    · simp only [lookupName, if_neg hnm] at hin
                      exact Option.noConfusion hin
              · exact Or.inr (List.mem_cons_of_mem nm hmem)

/-- Claim C8: the object-to-identifier table only grows: a recoloring pass
(`ColorAllObjects`) that completes without tripping the `check` preserves
every existing name-to-identifier entry, never decreases `ColorsUsed`, and
adds entries only for names it was asked to color. -/
theorem claim_c8_stable_identifiers (names : List String)
    (st st' : ColorTableState) (h : colorAllObjects names st = some st') :
    (∀ name k, lookupName st.objectToColor name = some k →
        lookupName st'.objectToColor name = some k) ∧
      st.colorsUsed ≤ st'.colorsUsed ∧
      (∀ name k, lookupName st'.objectToColor name = some k →
        lookupName st.objectToColor name = some k ∨ name ∈ names) := by
  simp only [colorAllObjects] at h
  exact foldlM_colorStep_inv names
    { objectToColor := st.objectToColor, colorsUsed := st.colorsUsed,
      objectColorsNum :=
        st.objectColorsNum + generateColorsCount (2 * names.length) }
    st' h

/-- Witness for C8: a second pass over `["x", "y"]` starting from a table
that already maps `"x" ↦ 0`. -/
theorem claim_c8_witness :
    colorAllObjects ["x", "y"] ⟨[("x", 0)], 1, 50⟩
        = some ⟨[("x", 0), ("y", 1)], 2, 100⟩ ∧
      ((∀ name k, lookupName [("x", 0)] name = some k →
          lookupName [("x", 0), ("y", 1)] name = some k) ∧
        1 ≤ 2 ∧
        (∀ name k, lookupName [("x", 0), ("y", 1)] name = some k →
          lookupName [("x", 0)] name = some k ∨ name ∈ ["x", "y"])) :=
  ⟨by decide, claim_c8_stable_identifiers ["x", "y"] ⟨[("x", 0)], 1, 50⟩
    ⟨[("x", 0), ("y", 1)], 2, 100⟩ (by decide)⟩

/-- The gate at the top of `UVisionComponent::TickComponent`
(lines 171-182): return early when paused; otherwise accumulate
`TimePassed += DeltaTime`, return early when
`!UseEngineFramerate && TimePassed < FrameTime`, else subtract one
`FrameTime` and process the frame.  Result: the new accumulator and
whether this tick processed a frame. -/
def tickGate (paused useEngineFramerate : Bool) (frameTime : ℚ)
    (timePassed deltaTime : ℚ) : ℚ × Bool :=
  if paused then (timePassed, false)
  else
    let t := timePassed + deltaTime
    if useEngineFramerate = false ∧ t < frameTime then (t, false)
    else (t - frameTime, true)

/-- A sequence of ticks with the given per-tick elapsed times; returns the
final accumulator and the number of processed frames. -/
def runTicks (paused useEngineFramerate : Bool) (frameTime : ℚ) :
    ℚ → List ℚ → ℚ × ℕ
  | timePassed, [] => (timePassed, 0)
  | timePassed, d :: ds =>
      let r := tickGate paused useEngineFramerate frameTime timePassed d
      let rest := runTicks paused useEngineFramerate frameTime r.1 ds
      (rest.1, (if r.2 then 1 else 0) + rest.2)

lemma tickGate_fires_iff (frameTime timePassed deltaTime : ℚ) :
    (tickGate false false frameTime timePassed deltaTime).2 = true ↔
      frameTime ≤ timePassed + deltaTime := by
  unfold tickGate
  by_cases h : timePassed + deltaTime < frameTime
  · rw [if_neg (by simp), if_pos (by simp [h])]
    simpa using not_le.mpr h
  · rw [if_neg (by simp), if_neg (by simp [h])]
    simpa using not_lt.mp h

lemma tickGate_accum (frameTime timePassed deltaTime : ℚ) :
    (tickGate false false frameTime timePassed deltaTime).1 =
      if frameTime ≤ timePassed + deltaTime then
        timePassed + deltaTime - frameTime
      else timePassed + deltaTime := by
  unfold tickGate
  by_cases h : timePassed + deltaTime < frameTime
  · rw [if_neg (by simp), if_pos (by simp [h]), if_neg (not_le.mpr h)]
  · rw [if_neg (by simp), if_neg (by simp [h]), if_pos (not_lt.mp h)]

lemma runTicks_accounting (frameTime : ℚ) :
    ∀ (ds : List ℚ) (timePassed : ℚ),
      timePassed + ds.sum =
        frameTime * ((runTicks false false frameTime timePassed ds).2 : ℚ) +
          (runTicks false false frameTime timePassed ds).1
  | [], timePassed => by
      simp [runTicks]
  | d :: ds, timePassed => by
      simp only [runTicks, List.sum_cons]
      have ih := runTicks_accounting frameTime ds
        ((tickGate false false frameTime timePassed d).1)
      rw [tickGate_accum] at ih ⊢
      by_cases h : frameTime ≤ timePassed + d
      · rw [if_pos h] at ih ⊢
        have hfire : (tickGate false false frameTime timePassed d).2 = true :=
          (tickGate_fires_iff frameTime timePassed d).mpr h
        rw [hfire, if_pos rfl]
        push_cast
        linarith
      · rw [if_neg h] at ih ⊢
        have hfire : (tickGate false false frameTime timePassed d).2 = false := by
          rcases Bool.eq_false_or_eq_true
            (tickGate false false frameTime timePassed d).2 with ht | hf
          · exact absurd ((tickGate_fires_iff frameTime timePassed d).mp ht) h
          · exact hf
        rw [hfire, if_neg (by simp)]
        push_cast
        linarith

lemma runTicks_lower (frameTime : ℚ) :
    ∀ (ds : List ℚ) (timePassed : ℚ), 0 ≤ timePassed →
      (∀ d ∈ ds, 0 ≤ d) →
      0 ≤ (runTicks false false frameTime timePassed ds).1
  | [], timePassed => fun h0 _ => h0
  | d :: ds, timePassed => fun h0 hds => by
      simp only [runTicks]
      refine runTicks_lower frameTime ds _ ?_ fun x hx => hds x (by simp [hx])
      have hd : 0 ≤ d := hds d (by simp)
      rw [tickGate_accum]
      by_cases h : frameTime ≤ timePassed + d
      · rw [if_pos h]
        linarith
      · rw [if_neg h]
        linarith

lemma runTicks_upper (frameTime : ℚ) :
    ∀ (ds : List ℚ) (timePassed : ℚ), timePassed < frameTime →
      (∀ d ∈ ds, d ≤ frameTime) →
      (runTicks false false frameTime timePassed ds).1 < frameTime
  | [], timePassed => fun h0 _ => h0
  | d :: ds, timePassed => fun h0 hds => by
      simp only [runTicks]
      refine runTicks_upper frameTime ds _ ?_ fun x hx => hds x (by simp [hx])
      have hd : d ≤ frameTime := hds d (by simp)
      rw [tickGate_accum]
      by_cases h : frameTime ≤ timePassed + d
      · rw [if_pos h]
        linarith
      · rw [if_neg h]
        linarith

/-- Claim C9: with `UseEngineFramerate = false` and the sensor not paused,
a tick fires exactly when the accumulated time reaches `FrameTime`
(= 1/framerate), firing subtracts exactly one `FrameTime`, and over any
tick sequence whose deltas lie in `[0, FrameTime]` and whose initial
accumulator lies in `[0, FrameTime)`, the number of processed frames `n`
satisfies `total = FrameTime * n + r` with `0 ≤ r < FrameTime` — so the
long-run rate is the configured framerate and never more than one frame
is produced per `FrameTime` of accumulated time.  Paused ticks process
nothing and leave the accumulator unchanged. -/
theorem claim_c9_framerate_gating (frameTime timePassed0 : ℚ)
    (ds : List ℚ) (hlow : 0 ≤ timePassed0) (hhigh : timePassed0 < frameTime)
    (hds : ∀ d ∈ ds, 0 ≤ d ∧ d ≤ frameTime) :
    (∀ tp d : ℚ, (tickGate false false frameTime tp d).2 = true ↔
        frameTime ≤ tp + d) ∧
      (∀ tp d : ℚ, frameTime ≤ tp + d →
        tickGate false false frameTime tp d = (tp + d - frameTime, true)) ∧
      (∀ (ue : Bool) (tp d : ℚ), tickGate true ue frameTime tp d = (tp, false)) ∧
      (timePassed0 + ds.sum =
          frameTime * ((runTicks false false frameTime timePassed0 ds).2 : ℚ) +
            (runTicks false false frameTime timePassed0 ds).1 ∧
        0 ≤ (runTicks false false frameTime timePassed0 ds).1 ∧
        (runTicks false false frameTime timePassed0 ds).1 < frameTime) := by
  refine ⟨tickGate_fires_iff frameTime, ?_, ?_, ?_, ?_, ?_⟩
  · intro tp d h
    have h1 := tickGate_accum frameTime tp d
    rw [if_pos h] at h1
    have h2 := (tickGate_fires_iff frameTime tp d).mpr h
    exact Prod.ext h1 h2
  · intro ue tp d
    unfold tickGate
    rw [if_pos rfl]
  · exact runTicks_accounting frameTime ds timePassed0
  · exact runTicks_lower frameTime ds timePassed0 hlow fun d hd => (hds d hd).1
  · exact runTicks_upper frameTime ds timePassed0 hhigh fun d hd => (hds d hd).2

/-- Witness for C9: `framerate = 10` (`FrameTime = 1/10`), seven ticks of
16 ms starting from an empty accumulator. -/
theorem claim_c9_witness :
    (0 : ℚ) ≤ 0 ∧ (0 : ℚ) < 1 / 10 ∧
      (∀ d ∈ ([2 / 125, 2 / 125, 2 / 125, 2 / 125, 2 / 125, 2 / 125,
          2 / 125] : List ℚ), 0 ≤ d ∧ d ≤ 1 / 10) ∧
      ((0 : ℚ) + ([2 / 125, 2 / 125, 2 / 125, 2 / 125, 2 / 125, 2 / 125,
            2 / 125] : List ℚ).sum =
          1 / 10 * ((runTicks false false (1 / 10) 0
              [2 / 125, 2 / 125, 2 / 125, 2 / 125, 2 / 125, 2 / 125,
                2 / 125]).2 : ℚ) +
            (runTicks false false (1 / 10) 0
              [2 / 125, 2 / 125, 2 / 125, 2 / 125, 2 / 125, 2 / 125,
                2 / 125]).1 ∧
        0 ≤ (runTicks false false (1 / 10) 0
            [2 / 125, 2 / 125, 2 / 125, 2 / 125, 2 / 125, 2 / 125,
              2 / 125]).1 ∧
        (runTicks false false (1 / 10) 0
            [2 / 125, 2 / 125, 2 / 125, 2 / 125, 2 / 125, 2 / 125,
              2 / 125]).1 < 1 / 10) :=
  ⟨le_refl 0, by norm_num, by norm_num,
    ((claim_c9_framerate_gating (1 / 10) 0
        [2 / 125, 2 / 125, 2 / 125, 2 / 125, 2 / 125, 2 / 125, 2 / 125]
        (le_refl 0) (by norm_num) (by norm_num)).2.2.2)⟩

/-- The `CameraInfo` intrinsic matrix `K` and projection matrix `P`
computed at the bottom of `TickComponent` (lines 339-402).  `tanf` models
`std::tan` and `piv` the constant `PI`; both appear only where the source
calls them.  `fovY`/`halfFovY` are computed exactly as in the source
(lines 340, 342) and, like the source, never used afterwards. -/
def cameraInfoKP (tanf : ℚ → ℚ) (piv : ℚ) (width height : ℕ)
    (fieldOfView : ℚ) : (Fin 9 → ℚ) × (Fin 12 → ℚ) :=
  let fovX : ℚ :=
    if height > width then fieldOfView * width / height else fieldOfView
  let fovY : ℚ :=
    if width > height then fieldOfView * height / width else fieldOfView
  let halfFovX : ℚ := fovX * piv / 360
  let halfFovY : ℚ := fovY * piv / 360
  let cX : ℚ := (width : ℚ) / 2
  let cY : ℚ := (height : ℚ) / 2
  let k0 : ℚ := cX / tanf halfFovX
  let k2 : ℚ := cX
  let k4 : ℚ := k0
  let k5 : ℚ := cY
  let k8 : ℚ := 1
  let p0 : ℚ := k0
  let p2 : ℚ := k2
  let p5 : ℚ := k4
  let p6 : ℚ := k5
  let p10 : ℚ := 1
  (![k0, 0, k2, 0, k4, k5, 0, 0, k8],
    ![p0, 0, p2, 0, 0, p5, p6, 0, 0, 0, p10, 0])

/-- Claim C10: in the published `CameraInfo`, the vertical focal length
`K[4]` always equals the horizontal one `K[0] = (Width/2)/tan(FOVX*PI/360)`
for all width, height and field of view — the separately computed `FOVY`
is never used in the intrinsic matrix — and `P[5] = K[4]`. -/
theorem claim_c10_camera_intrinsics (tanf : ℚ → ℚ) (piv : ℚ)
    (width height : ℕ) (fieldOfView : ℚ) :
    (cameraInfoKP tanf piv width height fieldOfView).1 4 =
        (cameraInfoKP tanf piv width height fieldOfView).1 0 ∧
      (cameraInfoKP tanf piv width height fieldOfView).1 0 =
        ((width : ℚ) / 2) /
          tanf ((if height > width then fieldOfView * width / height
            else fieldOfView) * piv / 360) ∧
      (cameraInfoKP tanf piv width height fieldOfView).2 5 =
        (cameraInfoKP tanf piv width height fieldOfView).1 4 :=
  ⟨rfl, rfl, rfl⟩

/-- The three threads of the frame pipeline: the game-thread producer
(`TickComponent`), and the two workers started in `BeginPlay`
(lines 133-134), running `ProcessColor` and `ProcessDepth`. -/
inductive PipeThread where
  | producer
  | colorWorker
  | depthWorker
  deriving DecidableEq

/-- Observable synchronisation events of one tick, named after the source
calls that emit them. -/
inductive Ev where
  | startWriting
  | notifyColor
  | notifyDepth
  | processColor
  | processDepth
  | doneWriting
  | startReading
  | doneReading
  deriving DecidableEq

/-- Joint state of the producer (`TickComponent`, lines 203-287) and the
two workers (`ProcessColor` lines 700-721, `ProcessDepth` lines 723-732),
with the two mutexes `WaitColor`/`WaitDepth` and the trace of events
emitted so far.

Producer program counter (straight-line body after the framerate gate):
0 `StartWriting` (204), 1 `WaitColor.lock()` (207), 2 read color pixels
(210-221), 3 `WaitColor.unlock()` (223), 4 `CVColor.notify_one()` (224),
5 `WaitDepth.lock()` (227), 6 read depth pixels (228), 7
`WaitDepth.unlock()` (229), 8 `CVDepth.notify_one()` (230), 9
`DoneWriting` (233), 10 `StartReading` (235), 11 publish from the read
buffer (236-286), 12 `DoneReading` (287), 13 tick finished.

Worker program counter (one loop iteration): 0 acquire the mutex
(`unique_lock`, line 704/727), 1 `cv.wait` releases the mutex and blocks
(705/728), 2 parked on the condition variable, 3 woken, reacquiring the
mutex, 4 convert the planes into the write buffer (707-718/729), 5
`notify_one` back (719/730), 6 release the mutex at scope end, 7 iteration
done. -/
structure PipelineState where
  prodPc : ℕ
  colPc : ℕ
  depPc : ℕ
  mutexColor : Option PipeThread
  mutexDepth : Option PipeThread
  trace : List Ev
  deriving DecidableEq

/-- Interleaving semantics: each constructor is one atomic action of one
thread, guarded by its program counter and, for mutex actions, by the
mutex state.  `notify_one` wakes the worker only if it is parked
(pc = 2); otherwise the notification is lost, exactly as for
`std::condition_variable` with no waiter.  There is no constructor that
makes the producer wait on the workers: lines 230-235 of the source run
`notify_one; DoneWriting; StartReading` back to back. -/
inductive Step : PipelineState → PipelineState → Prop where
  | prodStartWriting (s : PipelineState) (h : s.prodPc = 0) :
      Step s { s with prodPc := 1, trace := s.trace ++ [Ev.startWriting] }
  | prodLockColor (s : PipelineState) (h : s.prodPc = 1)
      (hm : s.mutexColor = none) :
      Step s { s with prodPc := 2, mutexColor := some PipeThread.producer }
  | prodReadColor (s : PipelineState) (h : s.prodPc = 2) :
      Step s { s with prodPc := 3 }
  | prodUnlockColor (s : PipelineState) (h : s.prodPc = 3)
      (hm : s.mutexColor = some PipeThread.producer) :
      Step s { s with prodPc := 4, mutexColor := none }
  | prodNotifyColor (s : PipelineState) (h : s.prodPc = 4) :
      Step s ({ s with
                prodPc := 5,
                colPc := if s.colPc = 2 then 3 else s.colPc,
                trace := s.trace ++ [Ev.notifyColor] })
  | prodLockDepth (s : PipelineState) (h : s.prodPc = 5)
      (hm : s.mutexDepth = none) :
      Step s { s with prodPc := 6, mutexDepth := some PipeThread.producer }
  | prodReadDepth (s : PipelineState) (h : s.prodPc = 6) :
      Step s { s with prodPc := 7 }
  | prodUnlockDepth (s : PipelineState) (h : s.prodPc = 7)
      (hm : s.mutexDepth = some PipeThread.producer) :
      Step s { s with prodPc := 8, mutexDepth := none }
  | prodNotifyDepth (s : PipelineState) (h : s.prodPc = 8) :
      Step s ({ s with
                prodPc := 9,
                depPc := if s.depPc = 2 then 3 else s.depPc,
                trace := s.trace ++ [Ev.notifyDepth] })
  | prodDoneWriting (s : PipelineState) (h : s.prodPc = 9) :
      Step s { s with prodPc := 10, trace := s.trace ++ [Ev.doneWriting] }
  | prodStartReading (s : PipelineState) (h : s.prodPc = 10) :
      Step s { s with prodPc := 11, trace := s.trace ++ [Ev.startReading] }
  | prodPublish (s : PipelineState) (h : s.prodPc = 11) :
      Step s { s with prodPc := 12 }
  | prodDoneReading (s : PipelineState) (h : s.prodPc = 12) :
      Step s { s with prodPc := 13, trace := s.trace ++ [Ev.doneReading] }
  | colLock (s : PipelineState) (h : s.colPc = 0)
      (hm : s.mutexColor = none) :
      Step s { s with colPc := 1, mutexColor := some PipeThread.colorWorker }
  | colWait (s : PipelineState) (h : s.colPc = 1)
      (hm : s.mutexColor = some PipeThread.colorWorker) :
      Step s { s with colPc := 2, mutexColor := none }
  | colRelock (s : PipelineState) (h : s.colPc = 3)
      (hm : s.mutexColor = none) :
      Step s { s with colPc := 4, mutexColor := some PipeThread.colorWorker }
  | colProcess (s : PipelineState) (h : s.colPc = 4) :
      Step s { s with colPc := 5, trace := s.trace ++ [Ev.processColor] }
  | colNotifyBack (s : PipelineState) (h : s.colPc = 5) :
      Step s { s with colPc := 6 }
  | colUnlock (s : PipelineState) (h : s.colPc = 6)
      (hm : s.mutexColor = some PipeThread.colorWorker) :
      Step s { s with colPc := 7, mutexColor := none }
  | depLock (s : PipelineState) (h : s.depPc = 0)
      (hm : s.mutexDepth = none) :
      Step s { s with depPc := 1, mutexDepth := some PipeThread.depthWorker }
  | depWait (s : PipelineState) (h : s.depPc = 1)
      (hm : s.mutexDepth = some PipeThread.depthWorker) :
      Step s { s with depPc := 2, mutexDepth := none }
  | depRelock (s : PipelineState) (h : s.depPc = 3)
      (hm : s.mutexDepth = none) :
      Step s { s with depPc := 4, mutexDepth := some PipeThread.depthWorker }
  | depProcess (s : PipelineState) (h : s.depPc = 4) :
      Step s { s with depPc := 5, trace := s.trace ++ [Ev.processDepth] }
  | depNotifyBack (s : PipelineState) (h : s.depPc = 5) :
      Step s { s with depPc := 6 }
  | depUnlock (s : PipelineState) (h : s.depPc = 6)
      (hm : s.mutexDepth = some PipeThread.depthWorker) :
      Step s { s with depPc := 7, mutexDepth := none }

/-- Tick start: producer at the top of the buffer section, both workers at
the top of their loops, both mutexes free, nothing emitted yet. -/
def initPipeline : PipelineState :=
  { prodPc := 0, colPc := 0, depPc := 0, mutexColor := none,
    mutexDepth := none, trace := [] }

/-- States reachable by interleaving the three threads from a tick start. -/
def Reach (s : PipelineState) : Prop :=
  Relation.ReflTransGen Step initPipeline s

/-- Claim C1 (refuted, code bug): there is a legal schedule in which the
producer closes the write transaction (`DoneWriting`) and opens the read
transaction (`StartReading`) before either worker has processed its
plane, and in which the color worker then writes the color plane while
the read transaction is still open: the producer never waits for the
workers' completion signals (the `WaitDone` mutex declared in
`PrivateData` is never used). -/
theorem claim_c1_producer_no_wait :
    ∃ s : PipelineState, Reach s ∧
      s.trace = [Ev.startWriting, Ev.notifyColor, Ev.notifyDepth,
        Ev.doneWriting, Ev.startReading, Ev.processColor] ∧
      s.prodPc = 11 := by
  refine ⟨{ prodPc := 11, colPc := 5, depPc := 3,
            mutexColor := some PipeThread.colorWorker, mutexDepth := none,
            trace := [Ev.startWriting, Ev.notifyColor, Ev.notifyDepth,
              Ev.doneWriting, Ev.startReading, Ev.processColor] },
    ?_, rfl, rfl⟩
  unfold Reach
  apply Relation.ReflTransGen.head (Step.colLock _ rfl rfl)
  apply Relation.ReflTransGen.head (Step.colWait _ rfl rfl)
  apply Relation.ReflTransGen.head (Step.depLock _ rfl rfl)
  apply Relation.ReflTransGen.head (Step.depWait _ rfl rfl)
  apply Relation.ReflTransGen.head (Step.prodStartWriting _ rfl)
  apply Relation.ReflTransGen.head (Step.prodLockColor _ rfl rfl)
  apply Relation.ReflTransGen.head (Step.prodReadColor _ rfl)
  apply Relation.ReflTransGen.head (Step.prodUnlockColor _ rfl rfl)
  apply Relation.ReflTransGen.head (Step.prodNotifyColor _ rfl)
  apply Relation.ReflTransGen.head (Step.prodLockDepth _ rfl rfl)
  apply Relation.ReflTransGen.head (Step.prodReadDepth _ rfl)
  apply Relation.ReflTransGen.head (Step.prodUnlockDepth _ rfl rfl)
  apply Relation.ReflTransGen.head (Step.prodNotifyDepth _ rfl)
  apply Relation.ReflTransGen.head (Step.prodDoneWriting _ rfl)
  apply Relation.ReflTransGen.head (Step.prodStartReading _ rfl)
  apply Relation.ReflTransGen.head (Step.colRelock _ rfl rfl)
  apply Relation.ReflTransGen.head (Step.colProcess _ rfl)
  exact Relation.ReflTransGen.refl

/-- Witness for the amended C3 at `c = 10` with the identity-at-exponent-1
power function: the output is `138`, not `10`. -/
theorem claim_c3_witness :
    (∀ x : ℚ, (fun x _ => x : ℚ → ℚ → ℚ) x 1 = x) ∧ (10 : ℕ) ≤ 255 ∧
      processChannelU8 (fun x _ => x : ℚ → ℚ → ℚ) 1 0 0 10 =
        min ((10 : ℤ) + 128) 255 :=
  ⟨fun _ => rfl, by norm_num,
    claim_c3_amended (fun x _ => x) (fun _ => rfl) 10 (by norm_num)⟩
